import Mathlib

/-!
# Verification of the Overhoorder quiz platform against its specification

Shallow embedding of the parts of the code base that the specification's
claims are about, together with theorems settling each claim.

* `src/services/auth.js` — permission checks (`checkPermission`,
  `checkSessiePermission`, …) and the user-facing auth operations.
* `src/middleware/auth.js` — JWT generation/verification.
* the database service — `transaction` (BEGIN/COMMIT/ROLLBACK discipline).
* the config module — violation threshold and rate-limit settings.
* `src/routes/dashboard.js` — library question-list queries.
* the middleware module — the sliding-window `rateLimit` middleware.

The live session engine (state machine, violation tracker, answer intake)
is referenced by the specification but its implementation is not part of
the sources at hand; those components are modelled from the specification
text and are marked as such in their doc comments.
-/

namespace Overhoorder

/-! ## Auth service data model (src/services/auth.js)

Users (`docenten`), classes (`klassen`), question lists (`vragenlijsten`)
and sessions (`sessies`) as read through the database service.  Only the
fields the permission checks consult are represented.  The database is a
structure of lookup functions, mirroring the `db.getXById` calls.
-/

/-- A user row (`docenten` table) as consulted by `checkPermission`. -/
structure Docent where
  id : Nat
  role : String
  deriving DecidableEq

/-- A session row (`sessies` table): `docent_id` is the creating teacher. -/
structure Sessie where
  docent_id : Nat
  deriving DecidableEq

/-- A class row (`klassen` table): `docent_id` is the owning teacher. -/
structure Klas where
  docent_id : Nat
  deriving DecidableEq

/-- A question-list row (`vragenlijsten` table): `klas_id` is the class it belongs to. -/
structure Vragenlijst where
  klas_id : Nat
  deriving DecidableEq

/-- The database lookups used by the permission checks (`db.getUserById`,
`db.getKlasById`, `db.getVragenlijstById`, `db.getSessieById`). -/
structure PermDB where
  getUserById : Nat → Option Docent
  getKlasById : Nat → Option Klas
  getVragenlijstById : Nat → Option Vragenlijst
  getSessieById : Nat → Option Sessie

/-- `AuthService.checkKlasPermission`: the class must exist and be owned by the user. -/
def checkKlasPermission (db : PermDB) (user : Docent) (klasId : Nat) : Bool :=
  match db.getKlasById klasId with
  | none => false
  | some klas => klas.docent_id == user.id

/-- `AuthService.checkVragenlijstPermission`: the list must exist and its class be owned. -/
def checkVragenlijstPermission (db : PermDB) (user : Docent) (vragenlijstId : Nat) : Bool :=
  match db.getVragenlijstById vragenlijstId with
  | none => false
  | some vragenlijst => checkKlasPermission db user vragenlijst.klas_id

/-- `AuthService.checkSessiePermission`: the session must exist and
`sessie.docent_id` must equal the caller's id. -/
def checkSessiePermission (db : PermDB) (user : Docent) (sessieId : Nat) : Bool :=
  match db.getSessieById sessieId with
  | none => false
  | some sessie => sessie.docent_id == user.id

/-- `AuthService.checkPermission`: unknown users are refused, users with the
`admin` role are granted everything, otherwise the check dispatches on the
resource type. -/
def checkPermission (db : PermDB) (userId : Nat) (resourceType : String)
    (resourceId : Nat) : Bool :=
  match db.getUserById userId with
  | none => false
  | some user =>
    if user.role == "admin" then true
    else
      match resourceType with
      | "klas" => checkKlasPermission db user resourceId
      | "vragenlijst" => checkVragenlijstPermission db user resourceId
      | "sessie" => checkSessiePermission db user resourceId
      | _ => false

/-- Modelled from the spec: the session-management route handlers (advance,
pause, end) are not among the sources at hand.  Per the spec, such a call
first consults the session permission check; when the check denies, the call
returns `Forbidden` and the stored session rows are left unchanged, and when
it grants, the stored session row is updated by the requested step. -/
def sessieManage (db : PermDB) (userId sessieId : Nat) (step : Sessie → Sessie) :
    PermDB × Option String :=
  if checkPermission db userId "sessie" sessieId then
    ({ db with getSessieById := fun i =>
        if i == sessieId then (db.getSessieById i).map step else db.getSessieById i },
      none)
  else
    (db, some "Forbidden")

/-! ## Database transactions

The database service wraps a SQLite connection; `transaction(queries)` issues
`BEGIN TRANSACTION`, runs the queries in order, and issues `COMMIT` on
success or `ROLLBACK` (re-raising the error) when any query fails.  A
connection is modelled as a committed state plus an optional pending
transaction state; a single SQL statement acts on the pending state when a
transaction is open and autocommits otherwise. -/

/-- One SQL statement: acting on a database state it either fails (leaving
the state as it was, statements being atomic) or returns a result and the
updated state. -/
def SqlOp (σ ρ : Type) : Type := σ → Except String (ρ × σ)

/-- A database connection: the durably committed state plus the pending
state of an open transaction, if one is open. -/
structure DBConn (σ : Type) where
  committed : σ
  pending : Option σ

/-- Run one statement on a connection (`db.run` / `db.get` / `db.all`): inside
an open transaction the statement acts on the pending state; outside, it
autocommits. -/
def execSql {σ ρ : Type} (op : SqlOp σ ρ) (c : DBConn σ) : Except String ρ × DBConn σ :=
  match c.pending with
  | some s =>
    match op s with
    | .ok (r, s2) => (.ok r, ⟨c.committed, some s2⟩)
    | .error e => (.error e, c)
  | none =>
    match op c.committed with
    | .ok (r, s2) => (.ok r, ⟨s2, none⟩)
    | .error e => (.error e, c)

/-- `BEGIN TRANSACTION`: open a pending state initialised from the committed one. -/
def beginTransaction {σ : Type} (c : DBConn σ) : DBConn σ :=
  ⟨c.committed, some c.committed⟩

/-- `COMMIT`: make the pending state durable. -/
def commitTransaction {σ : Type} (c : DBConn σ) : DBConn σ :=
  match c.pending with
  | some s => ⟨s, none⟩
  | none => c

/-- `ROLLBACK`: discard the pending state. -/
def rollbackTransaction {σ : Type} (c : DBConn σ) : DBConn σ :=
  ⟨c.committed, none⟩

/-- The loop body of `DatabaseService.transaction`: run the queries in order
on the connection, stopping at the first failure.  (The JS loop dispatches on
the query's `type` tag only to pick `db.run`/`db.get`/`db.all`, all of which
execute the statement; the tag does not change the stateful behaviour.) -/
def runQueries {σ ρ : Type} (qs : List (SqlOp σ ρ)) (c : DBConn σ) :
    Except String (List ρ) × DBConn σ :=
  match qs with
  | [] => (.ok [], c)
  | q :: rest =>
    match execSql q c with
    | (.ok r, c2) =>
      match runQueries rest c2 with
      | (.ok rs, c3) => (.ok (r :: rs), c3)
      | (.error e, c3) => (.error e, c3)
    | (.error e, c2) => (.error e, c2)

/-- `DatabaseService.transaction`: `BEGIN TRANSACTION`, run all queries, then
`COMMIT`; on any failure `ROLLBACK` and surface the error. -/
def transaction {σ ρ : Type} (qs : List (SqlOp σ ρ)) (c : DBConn σ) :
    Except String (List ρ) × DBConn σ :=
  match runQueries qs (beginTransaction c) with
  | (.ok rs, c2) => (.ok rs, commitTransaction c2)
  | (.error e, c2) => (.error e, rollbackTransaction c2)

/-- Reference semantics for a query list: sequential application on a bare
state with no transaction machinery. -/
def applyAll {σ ρ : Type} (qs : List (SqlOp σ ρ)) (s : σ) : Except String (List ρ × σ) :=
  match qs with
  | [] => .ok ([], s)
  | q :: rest =>
    match q s with
    | .ok (r, s2) =>
      match applyAll rest s2 with
      | .ok (rs, s3) => .ok (r :: rs, s3)
      | .error e => .error e
    | .error e => .error e

/-! ## Session state machine

Modelled from the spec: the live session engine is not among the sources at
hand.  Spec §4.1 gives the states `pending → question_active →
question_closed → ended` and the transitions `start`, `advance`,
`forceClose`, `expire` (timer-driven, idempotent) and `end`.  Each
successful transition emits one Broadcast Event. -/

/-- Modelled from the spec: the lifecycle states of a live session (§4.1). -/
inductive Status where
  | pending
  | question_active
  | question_closed
  | ended
  deriving DecidableEq

/-- Modelled from the spec: the machine-relevant part of a stored session —
its status, the current question index (null before start and after the
end), and the deadline of the live question. -/
structure MState where
  status : Status
  currentQuestionIndex : Option Nat
  deadline : Option Nat
  deriving DecidableEq

/-- Modelled from the spec: a Broadcast Event carrying the new state (§4.1). -/
inductive BEvent where
  | question_started (index deadline : Nat)
  | question_closed (index : Nat)
  | session_ended
  deriving DecidableEq

/-- Modelled from the spec: a freshly created session is `pending` with no
current question and no deadline. -/
def initialSessie : MState := ⟨.pending, none, none⟩

/-- Modelled from the spec: `start`, `pending → question_active` for index 0
with deadline `now + per-question duration`; `InvalidState` otherwise. -/
def start (dur now : Nat) (s : MState) : Except String (MState × BEvent) :=
  if s.status = .pending then
    .ok (⟨.question_active, some 0, some (now + dur)⟩, .question_started 0 (now + dur))
  else
    .error "InvalidState"

/-- Modelled from the spec: `advance`, `question_closed → question_active`
for the next index, or `→ ended` when no questions remain (`n` is the number
of questions); `InvalidState` unless in `question_closed`. -/
def advance (n dur now : Nat) (s : MState) : Except String (MState × BEvent) :=
  match s.status, s.currentQuestionIndex with
  | .question_closed, some i =>
    if i + 1 < n then
      .ok (⟨.question_active, some (i + 1), some (now + dur)⟩,
        .question_started (i + 1) (now + dur))
    else
      .ok (⟨.ended, none, none⟩, .session_ended)
  | _, _ => .error "InvalidState"

/-- Modelled from the spec: `forceClose`, `question_active →
question_closed` immediately, bypassing the deadline. -/
def forceClose (s : MState) : Except String (MState × BEvent) :=
  match s.status, s.currentQuestionIndex with
  | .question_active, some i =>
    .ok (⟨.question_closed, some i, s.deadline⟩, .question_closed i)
  | _, _ => .error "InvalidState"

/-- Modelled from the spec: `expire`, timer-driven; `question_active →
question_closed` when `now ≥ deadline`, and a silent no-op (no event) in
every other situation, making it idempotent. -/
def expire (now : Nat) (s : MState) : MState × Option BEvent :=
  match s.status, s.currentQuestionIndex, s.deadline with
  | .question_active, some i, some d =>
    if d ≤ now then (⟨.question_closed, some i, some d⟩, some (.question_closed i))
    else (s, none)
  | _, _, _ => (s, none)

/-- Modelled from the spec: `end`, any non-terminal state `→ ended`
(irreversible); the current question index is cleared. -/
def endSessie (s : MState) : Except String (MState × BEvent) :=
  if s.status = .ended then .error "InvalidState"
  else .ok (⟨.ended, none, none⟩, .session_ended)

/-- Modelled from the spec: the session states reachable from a fresh session
by any sequence of (successful) state-machine transitions. -/
inductive Reachable (n dur : Nat) : MState → Prop where
  | init : Reachable n dur initialSessie
  | step_start (s s2 : MState) (ev : BEvent) (now : Nat) :
      Reachable n dur s → start dur now s = .ok (s2, ev) → Reachable n dur s2
  | step_advance (s s2 : MState) (ev : BEvent) (now : Nat) :
      Reachable n dur s → advance n dur now s = .ok (s2, ev) → Reachable n dur s2
  | step_forceClose (s s2 : MState) (ev : BEvent) :
      Reachable n dur s → forceClose s = .ok (s2, ev) → Reachable n dur s2
  | step_expire (s : MState) (now : Nat) :
      Reachable n dur s → Reachable n dur (expire now s).1
  | step_end (s s2 : MState) (ev : BEvent) :
      Reachable n dur s → endSessie s = .ok (s2, ev) → Reachable n dur s2

/-! ## Violation tracker

Modelled from the spec (§4.2): `recordViolation` increments the
participant's count; at or above the threshold the participant is marked
removed and a `participant_removed` event is emitted, otherwise a
`violation_warning` event with the current count and the threshold; a call
for an already-removed participant is a no-op. -/

/-- A participant's live state within a session: violation count and whether
the participant has been removed. -/
structure Participant where
  violationCount : Nat
  removed : Bool
  deriving DecidableEq

/-- Modelled from the spec: the events the violation tracker emits. -/
inductive VEvent where
  | violation_warning (count threshold : Nat)
  | participant_removed
  deriving DecidableEq

/-- Modelled from the spec: `recordViolation(session, participant, kind)`.
The kind is an opaque audit tag and does not influence the policy. -/
def recordViolation (threshold : Nat) (p : Participant) (kind : String) :
    Participant × Option VEvent :=
  if p.removed then (p, none)
  else
    let c := p.violationCount + 1
    if threshold ≤ c then
      ({ violationCount := c, removed := true }, some .participant_removed)
    else
      ({ violationCount := c, removed := false }, some (.violation_warning c threshold))

/-! ## Answer intake

Modelled from the spec (§4.4): `submit` rejects with `InvalidState` unless
the session is in `question_active` on the submitted question, with
`Forbidden` if the participant is removed or not a member, with `Duplicate`
if an Answer already exists for the (participant, question) pair, and
otherwise records exactly one new Answer. -/

/-- A stored Answer row: one submission by one participant for one question. -/
structure AnswerRec where
  participantId : Nat
  questionId : Nat
  payload : String
  submittedAt : Nat
  deriving DecidableEq

/-- Modelled from the spec: the outcomes of a `submit` call (§7 taxonomy). -/
inductive SubmitOutcome where
  | accepted
  | invalidState
  | forbidden
  | duplicate
  deriving DecidableEq

/-- The id of the currently live question: the session's question list
indexed by the current question index. -/
def currentQuestionId (questions : List Nat) (s : MState) : Option Nat :=
  match s.currentQuestionIndex with
  | some i => questions.get? i
  | none => none

/-- `true` iff an Answer for the (participant, question) pair is present. -/
def hasAnswerFor (answers : List AnswerRec) (pid qid : Nat) : Bool :=
  answers.any (fun a => a.participantId == pid && a.questionId == qid)

/-- Modelled from the spec: `submit(session, participant, question, answer,
submittedAt)` with its rejection order `InvalidState`, `Forbidden`,
`Duplicate`, and on success the appended Answer record. -/
def submit (questions : List Nat) (st : MState) (memberIds removedIds : List Nat)
    (answers : List AnswerRec) (pid qid : Nat) (payload : String) (submittedAt : Nat) :
    SubmitOutcome × List AnswerRec :=
  if st.status = .question_active ∧ currentQuestionId questions st = some qid then
    if pid ∈ removedIds ∨ pid ∉ memberIds then
      (.forbidden, answers)
    else if hasAnswerFor answers pid qid then
      (.duplicate, answers)
    else
      (.accepted, answers ++ [⟨pid, qid, payload, submittedAt⟩])
  else
    (.invalidState, answers)

/-- The number of Answers stored for one (participant, question) pair. -/
def countAnswersFor (answers : List AnswerRec) (pid qid : Nat) : Nat :=
  (answers.filter (fun a => a.participantId == pid && a.questionId == qid)).length

/-! ## JWT tokens (src/middleware/auth.js)

`generateToken` signs a payload with the configured secret, a 24h expiry and
fixed issuer/audience; `verifyToken` wraps `jwt.verify(token, secret)` in a
try/catch that turns every verification failure into `null`.  A credential
is modelled as either a malformed string or a signed envelope carrying its
payload, the secret it was signed with, and its expiry; `jwt.verify` (which
checks the signature and the expiry, but no issuer/audience since none are
passed as options) is modelled accordingly. -/

/-- A bearer credential: either not a well-formed signed token at all, or a
token signed with `secret`, expiring at `expiresAt`, carrying `payload`. -/
inductive JwtToken (π : Type) where
  | malformed (raw : String)
  | signed (payload : π) (secret : String) (expiresAt : Nat) (issuer audience : String)
  deriving DecidableEq

/-- `jwt.verify(token, secret)` at clock time `now`: throws (modelled as
`Except.error`) on a malformed token, a signature made with a different
secret, or an expired token; otherwise returns the payload. -/
def jwtVerify {π : Type} (secret : String) (now : Nat) (t : JwtToken π) :
    Except String π :=
  match t with
  | .malformed _ => .error "JsonWebTokenError"
  | .signed payload s e _ _ =>
    if s ≠ secret then .error "JsonWebTokenError: invalid signature"
    else if e ≤ now then .error "TokenExpiredError"
    else .ok payload

/-- `generateToken(payload)`: sign with the configured secret, 24h expiry,
issuer `overhoorer`, audience `overhoorer-users`. -/
def generateToken {π : Type} (secret : String) (now : Nat) (payload : π) : JwtToken π :=
  .signed payload secret (now + 24 * 60 * 60 * 1000) "overhoorer" "overhoorer-users"

/-- `verifyToken(token)`: `jwt.verify` wrapped in try/catch — any failure
yields `null` (here `none`), success yields the decoded payload. -/
def verifyToken {π : Type} (secret : String) (now : Nat) (t : JwtToken π) : Option π :=
  match jwtVerify secret now t with
  | .ok payload => some payload
  | .error _ => none

/-! ## Auth service user operations (src/services/auth.js)

A user row is a field map (the SQL row); the rest-spread
`const \x7b password: _, ...userWithoutPassword \x7d = user` drops the
`password` field before the row is returned to the caller. -/

/-- A database row as a field map (field name, stored value). -/
def UserRow : Type := List (String × String)

/-- Whether a returned object still carries a field of the given name. -/
def hasField (u : UserRow) (k : String) : Bool :=
  u.any (fun kv => kv.1 == k)

/-- Read a field of a row (`user.id`, `user.password`, …). -/
def lookupField (u : UserRow) (k : String) : Option String :=
  (List.find? (fun kv => kv.1 == k) u).map (fun kv => kv.2)

/-- The rest-spread that removes the `password` field from a row. -/
def omitPassword (u : UserRow) : UserRow :=
  u.filter (fun kv => kv.1 != "password")

/-- The token payload built by `register`/`login`: id, email, naam, role and
the derived `isAdmin` flag, taken from the stored row. -/
def tokenFields (u : UserRow) : UserRow :=
  [("id", (lookupField u "id").getD ""),
   ("email", (lookupField u "email").getD ""),
   ("naam", (lookupField u "naam").getD ""),
   ("role", (lookupField u "role").getD ""),
   ("isAdmin", if (lookupField u "role").getD "" == "admin" then "true" else "false")]

/-- The collaborators of the auth service: database lookups keyed as in the
code, plus bcrypt hashing/comparison treated as black boxes. -/
structure AuthEnv where
  getUserByEmail : String → Option UserRow
  getUserById : Nat → Option UserRow
  createUser : UserRow → Nat
  bcryptHash : String → String
  bcryptCompare : String → String → Bool

/-- `AuthService.register`: refuse an existing email, hash the password,
create the user, re-read it, and return the row without its password
together with a signed token.  (A failed re-read would make the JS code
throw on the property access; that throw is modelled as an error.) -/
def register (env : AuthEnv) (secret : String) (now : Nat)
    (naam email password role : String) :
    Except String (UserRow × JwtToken UserRow) :=
  match env.getUserByEmail email with
  | some _ => .error "User with this email already exists"
  | none =>
    let hashed := env.bcryptHash password
    let uid := env.createUser
      [("naam", naam), ("email", email), ("password", hashed), ("role", role)]
    match env.getUserById uid with
    | none => .error "User not found"
    | some user =>
      .ok (omitPassword user, generateToken secret now (tokenFields user))

/-- `AuthService.login`: look the user up by email, compare the password
with the stored hash, and return the row without its password together with
a signed token. -/
def login (env : AuthEnv) (secret : String) (now : Nat) (email password : String) :
    Except String (UserRow × JwtToken UserRow) :=
  match env.getUserByEmail email with
  | none => .error "Invalid email or password"
  | some user =>
    if env.bcryptCompare password ((lookupField user "password").getD "") then
      .ok (omitPassword user, generateToken secret now (tokenFields user))
    else
      .error "Invalid email or password"

/-- `AuthService.getProfile`: read the user and return the row without its
password. -/
def getProfile (env : AuthEnv) (userId : Nat) : Except String UserRow :=
  match env.getUserById userId with
  | none => .error "User not found"
  | some user => .ok (omitPassword user)

/-- `AuthService.verifyToken`: decode the credential, re-read the user, and
return the fresh row without its password; every failure inside the
surrounding try/catch surfaces as `Invalid or expired token`. -/
def verifyTokenService (env : AuthEnv) (secret : String) (now : Nat)
    (t : JwtToken UserRow) : Except String UserRow :=
  match verifyToken secret now t with
  | none => .error "Invalid or expired token"
  | some decoded =>
    match ((lookupField decoded "id").getD "").toNat? with
    | none => .error "Invalid or expired token"
    | some uid =>
      match env.getUserById uid with
      | none => .error "Invalid or expired token"
      | some user => .ok (omitPassword user)

/-! ## Library question-list queries (src/routes/dashboard.js)

Both the dashboard payload and the `bibliotheek` endpoint read
`bibliotheek_vragenlijsten`: the user with id 3 gets the whole table
(`SELECT * … ORDER BY id DESC`), every other user gets
`WHERE licentie_type != 'verborgen'` — under SQL's three-valued `!=` a NULL
`licentie_type` row is excluded as well.  A failed read is caught and
yields the empty list. -/

/-- A `bibliotheek_vragenlijsten` row: its id and its (nullable)
`licentie_type` column. -/
structure BiblioRow where
  id : Nat
  licentie_type : Option String
  deriving DecidableEq

/-- `ORDER BY id DESC` via insertion into a descending-by-id list. -/
def insertByIdDesc (r : BiblioRow) : List BiblioRow → List BiblioRow
  | [] => [r]
  | x :: xs => if x.id ≤ r.id then r :: x :: xs else x :: insertByIdDesc r xs

/-- `ORDER BY id DESC` over a whole result set. -/
def orderByIdDesc (rows : List BiblioRow) : List BiblioRow :=
  rows.foldr insertByIdDesc []

/-- The SQL predicate `licentie_type != 'verborgen'`: NULL compares to
unknown and is filtered out. -/
def verborgenFilter (rows : List BiblioRow) : List BiblioRow :=
  rows.filter (fun r =>
    match r.licentie_type with
    | some t => t != "verborgen"
    | none => false)

/-- The library query as both handlers issue it: the full table for user id
3, the filtered table for everyone else, ordered by id descending. -/
def bibliotheekQuery (userId : Nat) (table : List BiblioRow) : List BiblioRow :=
  if userId = 3 then orderByIdDesc table
  else orderByIdDesc (verborgenFilter table)

/-- The `biblio_lijsten` part of the `GET /api/dashboard` handler: the
library query guarded by the try/catch that turns a failed read into `[]`. -/
def dashboardBiblioLijsten (userId : Nat) (tableRead : Except String (List BiblioRow)) :
    List BiblioRow :=
  match tableRead with
  | .ok table => bibliotheekQuery userId table
  | .error _ => []

/-- The `GET /api/dashboard/bibliotheek` handler: the same query; a failed
read propagates to the error middleware, modelled as an error result. -/
def bibliotheekEndpoint (userId : Nat) (tableRead : Except String (List BiblioRow)) :
    Except String (List BiblioRow) :=
  match tableRead with
  | .ok table => .ok (bibliotheekQuery userId table)
  | .error e => .error e

/-! ## Rate limiting middleware

`rateLimit(options)` keeps a `Map` from client key (IP address) to the list
of timestamps of its accepted requests.  On each request it prunes the
key's entries to those with `time > now - windowMs`, rejects with status
429 (without recording the request) when `max` entries remain, and
otherwise records the request's timestamp.  The map is modelled as a total
function defaulting to the empty list (`requests.get(key) || []`). -/

/-- Prune a key's entries to the current window: keep `time > now - windowMs`
(written overflow-free as `now < time + windowMs`). -/
def prune (windowMs now : Nat) (l : List Nat) : List Nat :=
  l.filter (fun time => decide (now < time + windowMs))

/-- The middleware's mutable state: accepted-request timestamps per key. -/
structure RLState (κ : Type) where
  requests : κ → List Nat

/-- The middleware's per-request outcome: pass the request on, or answer
`429 Too Many Requests` with a `retryAfter` of `ceil(windowMs / 1000)`. -/
inductive RLOutcome where
  | next
  | tooMany (status retryAfter : Nat)
  deriving DecidableEq

/-- The empty rate-limiter state (a fresh `Map`). -/
def initialRL {κ : Type} : RLState κ :=
  ⟨fun _ => []⟩

/-- One request through the `rateLimit` middleware: prune the key's entries,
reject with 429 when `max` remain (leaving the pruned list recorded),
otherwise record the request's timestamp and pass it on. -/
def rateLimitStep {κ : Type} [DecidableEq κ] (windowMs maxReq : Nat)
    (st : RLState κ) (key : κ) (now : Nat) : RLState κ × RLOutcome :=
  let pruned := prune windowMs now (st.requests key)
  if maxReq ≤ pruned.length then
    (⟨fun k => if k = key then pruned else st.requests k⟩,
      .tooMany 429 ((windowMs + 999) / 1000))
  else
    (⟨fun k => if k = key then pruned ++ [now] else st.requests k⟩, .next)

/-- Feed a whole trace of requests (key, arrival time) through the
middleware, logging each request's outcome. -/
def rateLimitRun {κ : Type} [DecidableEq κ] (windowMs maxReq : Nat)
    (st : RLState κ) : List (κ × Nat) → RLState κ × List ((κ × Nat) × RLOutcome)
  | [] => (st, [])
  | (k, t) :: rest =>
    let step := rateLimitStep windowMs maxReq st k t
    let tail := rateLimitRun windowMs maxReq step.1 rest
    (tail.1, ((k, t), step.2) :: tail.2)

/-- The timestamps of the accepted (passed-on) requests of one key in a log. -/
def acceptedFor {κ : Type} [DecidableEq κ] (key : κ)
    (log : List ((κ × Nat) × RLOutcome)) : List Nat :=
  (log.filter (fun e => decide (e.1.1 = key) && decide (e.2 = .next))).map
    (fun e => e.1.2)

/-- How many of the timestamps lie in the trailing window `(t - W, t]`
(equivalently `a ≤ t` and `t < a + W`). -/
def countWin (windowMs : Nat) (l : List Nat) (t : Nat) : Nat :=
  (l.filter (fun a => decide (a ≤ t) && decide (t < a + windowMs))).length

/-! ## Concrete inputs used by counterexamples and witnesses -/

/-- A database holding an admin user (id 1) and a session created by the
teacher with id 2. -/
def dbAdmin : PermDB where
  getUserById := fun i => if i == 1 then some ⟨1, "admin"⟩ else none
  getKlasById := fun _ => none
  getVragenlijstById := fun _ => none
  getSessieById := fun i => if i == 10 then some ⟨2⟩ else none

/-- The session state after `start` on a fresh session at time 1000 with a
30-second question duration. -/
def afterStart : MState := ⟨.question_active, some 0, some 31000⟩

/-- The session state after the question-0 deadline expired. -/
def afterExpire : MState := ⟨.question_closed, some 0, some 31000⟩

/-- A participant already removed after reaching the threshold of 3. -/
def removedParticipant : Participant := ⟨3, true⟩

/-- A one-question session whose only question has id 7, already ended, with
a stored answer of participant 1 for question 7. -/
def endedState : MState := ⟨.ended, none, none⟩

/-- The stored answer of participant 1 for question 7. -/
def storedAnswer : AnswerRec := ⟨1, 7, "a", 5⟩

/-- A connection over a bare `Nat` state, committed value 5, no open
transaction. -/
def connFive : DBConn Nat := ⟨5, none⟩

/-- A query list whose second query fails: the first increments the state,
the second raises. -/
def failingQueries : List (SqlOp Nat Nat) :=
  [fun s => .ok (s, s + 1), fun _ => .error "SQLITE_ERROR"]

/-- A query list whose queries all succeed, each incrementing the state. -/
def goodQueries : List (SqlOp Nat Nat) :=
  [fun s => .ok (s, s + 1), fun s => .ok (s, s + 1)]

/-- An auth environment with a single stored user (id 1) whose row carries a
password hash. -/
def envOneUser : AuthEnv where
  getUserByEmail := fun e => if e == "a@b.nl" then
      some [("id", "1"), ("naam", "Anna"), ("email", "a@b.nl"),
            ("password", "hash1"), ("role", "teacher")]
    else none
  getUserById := fun i => if i == 1 then
      some [("id", "1"), ("naam", "Anna"), ("email", "a@b.nl"),
            ("password", "hash1"), ("role", "teacher")]
    else none
  createUser := fun _ => 1
  bcryptHash := fun pw => pw ++ "-hashed"
  bcryptCompare := fun pw hash => (pw ++ "-hashed") == hash ||
    (pw == "geheim" && hash == "hash1")

/-- A library table with one hidden row (id 2) and one visible row (id 1). -/
def biblioTable : List BiblioRow :=
  [⟨1, some "open"⟩, ⟨2, some "verborgen"⟩]

/-! ## Claim C1 — session-management permission -/

/-- C1 counterexample: the permission check grants session management to a
caller who is not the teacher who created the session — a user with the
`admin` role (id 1) is granted management of a session created by the
teacher with id 2, refuting "only the teacher who created a session may
advance, pause, or end it". -/
theorem checkPermission_admin_bypass :
    checkPermission dbAdmin 1 "sessie" 10 = true ∧
    dbAdmin.getUserById 1 = some ⟨1, "admin"⟩ ∧
    dbAdmin.getSessieById 10 = some ⟨2⟩ ∧
    (2 : Nat) ≠ 1 := by
  refine ⟨by decide, by decide, by decide, by decide⟩

/-- Unfolding of `checkPermission` at the `sessie` resource type: the string
dispatch reduces away. -/
theorem checkPermission_sessie_unfold (db : PermDB) (userId sessieId : Nat) :
    checkPermission db userId "sessie" sessieId =
      match db.getUserById userId with
      | none => false
      | some user =>
        if user.role == "admin" then true
        else checkSessiePermission db user sessieId := rfl

/-- C1 (amended): the session-management permission check grants a caller
exactly when the caller exists and either has the `admin` role or is the
teacher who created the session (`sessie.docent_id` equals the caller's
id); and whenever the check denies, the management call returns `Forbidden`
and leaves the stored sessions unchanged. -/
theorem checkPermission_sessie_owner_or_admin (db : PermDB) (userId sessieId : Nat)
    (step : Sessie → Sessie) :
    (checkPermission db userId "sessie" sessieId = true ↔
      ∃ u, db.getUserById userId = some u ∧
        (u.role = "admin" ∨
          ∃ s, db.getSessieById sessieId = some s ∧ s.docent_id = u.id)) ∧
    (checkPermission db userId "sessie" sessieId = false →
      sessieManage db userId sessieId step = (db, some "Forbidden")) := by
  constructor
  · rw [checkPermission_sessie_unfold]
    cases hu : db.getUserById userId with
    | none => simp
    | some u =>
      unfold checkSessiePermission
      cases hs : db.getSessieById sessieId with
      | none =>
        by_cases hr : u.role = "admin" <;> simp [hr]
      | some s =>
        by_cases hr : u.role = "admin" <;> simp [hr, beq_iff_eq]
  · intro h
    unfold sessieManage
    simp [h]

/-- C1 witness: a caller unknown to the database is denied, and the
management call returns `Forbidden` with the database unchanged. -/
theorem checkPermission_sessie_owner_or_admin_witness :
    sessieManage dbAdmin 2 10 id = (dbAdmin, some "Forbidden") :=
  (checkPermission_sessie_owner_or_admin dbAdmin 2 10 id).2 (by decide)

/-! ## Claim C2 — current question index vs. status -/

/-- C2 counterexample: a reachable state (start, then the deadline expires)
in which `current_question_index` is non-null although the status is
`question_closed`, not `question_active` — `advance` needs the index there
to know which question is next, so the "non-null iff `question_active`"
claim fails. -/
theorem currentIndex_nonnull_outside_active :
    Reachable 3 30000 afterExpire ∧
    afterExpire.currentQuestionIndex ≠ none ∧
    afterExpire.status ≠ .question_active := by
  refine ⟨?_, by decide, by decide⟩
  have h0 : Reachable 3 30000 initialSessie := Reachable.init
  have h1 : Reachable 3 30000 afterStart :=
    Reachable.step_start initialSessie afterStart (.question_started 0 31000) 1000 h0 rfl
  exact Reachable.step_expire afterStart 31000 h1

/-- C2 (amended): for every reachable session state,
`current_question_index` is non-null if and only if the status is
`question_active` or `question_closed` (equivalently: null iff the status is
`pending` or `ended`). -/
theorem currentIndex_iff_active_or_closed (n dur : Nat) (s : MState)
    (h : Reachable n dur s) :
    s.currentQuestionIndex ≠ none ↔
      (s.status = .question_active ∨ s.status = .question_closed) := by
  induction h with
  | init => simp [initialSessie]
  | step_start s s2 ev now hr hstep ih =>
    unfold start at hstep
    split at hstep
    · cases hstep; simp
    · cases hstep
  | step_advance s s2 ev now hr hstep ih =>
    unfold advance at hstep
    split at hstep
    · split at hstep
      · cases hstep; simp
      · cases hstep; simp
    · cases hstep
  | step_forceClose s s2 ev hr hstep ih =>
    unfold forceClose at hstep
    split at hstep
    · cases hstep; simp
    · cases hstep
  | step_expire s now hr ih =>
    obtain ⟨st, idx, dl⟩ := s
    cases st <;> cases idx <;> cases dl <;> simp_all [expire] <;> split <;> simp_all
  | step_end s s2 ev hr hstep ih =>
    unfold endSessie at hstep
    split at hstep
    · cases hstep
    · cases hstep; simp

/-- C2 witness: the invariant instantiated at the reachable
`question_closed` state built above — its index `some 0` is non-null. -/
theorem currentIndex_iff_active_or_closed_witness :
    afterExpire.currentQuestionIndex ≠ none := by
  have h0 : Reachable 3 30000 initialSessie := Reachable.init
  have h1 : Reachable 3 30000 afterStart :=
    Reachable.step_start initialSessie afterStart (.question_started 0 31000) 1000 h0 rfl
  have h2 : Reachable 3 30000 afterExpire :=
    Reachable.step_expire afterStart 31000 h1
  exact (currentIndex_iff_active_or_closed 3 30000 afterExpire h2).mpr (Or.inr rfl)

/-! ## Claim C3 — violation tracking -/

/-- C3 counterexample: for an already-removed participant the call is a
no-op — the count stays at 3 instead of being incremented and no event is
emitted, refuting "each call increments the count by one … otherwise a
`violation_warning` event is emitted". -/
theorem recordViolation_removed_not_incremented :
    removedParticipant.removed = true ∧
    (recordViolation 3 removedParticipant "tab-switch").1.violationCount =
      removedParticipant.violationCount ∧
    (recordViolation 3 removedParticipant "tab-switch").2 = none ∧
    removedParticipant.violationCount ≠ removedParticipant.violationCount + 1 := by
  decide

/-- C3 (amended): for every participant that is not yet removed,
`recordViolation` increments the violation count by one; if the new count
reaches the configured threshold the participant is marked removed and a
`participant_removed` event is emitted, otherwise the participant stays
active and a `violation_warning` event carrying the current count and the
threshold is emitted; for an already-removed participant the call is a
no-op. -/
theorem recordViolation_spec (threshold : Nat) (p : Participant) (kind : String)
    (h : p.removed = false) :
    ((recordViolation threshold p kind).1.violationCount = p.violationCount + 1) ∧
    (threshold ≤ p.violationCount + 1 →
      (recordViolation threshold p kind).1.removed = true ∧
      (recordViolation threshold p kind).2 = some .participant_removed) ∧
    (p.violationCount + 1 < threshold →
      (recordViolation threshold p kind).1.removed = false ∧
      (recordViolation threshold p kind).2 =
        some (.violation_warning (p.violationCount + 1) threshold)) ∧
    (∀ q : Participant, q.removed = true → recordViolation threshold q kind = (q, none)) := by
  refine ⟨?_, ?_, ?_, ?_⟩
  · unfold recordViolation
    simp only [h, Bool.false_eq_true, if_false]
    split <;> rfl
  · intro hc
    unfold recordViolation
    simp [h, hc]
  · intro hc
    unfold recordViolation
    simp only [h, Bool.false_eq_true, if_false]
    rw [if_neg (by omega)]
    simp
  · intro q hq
    unfold recordViolation
    simp [hq]

/-- C3 witness: a first violation with threshold 3 increments the count to 1
and emits a warning carrying count 1 and threshold 3. -/
theorem recordViolation_spec_witness :
    (recordViolation 3 ⟨0, false⟩ "visibility-lost").1.violationCount = 0 + 1 ∧
    (recordViolation 3 ⟨0, false⟩ "visibility-lost").2 =
      some (.violation_warning (0 + 1) 3) :=
  ⟨(recordViolation_spec 3 ⟨0, false⟩ "visibility-lost" rfl).1,
   ((recordViolation_spec 3 ⟨0, false⟩ "visibility-lost" rfl).2.2.1 (by decide)).2⟩

/-! ## Claim C6 — idempotence of `expire` -/

/-- C6: `expire` fired on a session that is no longer in `question_active`
(in particular on the `question_closed` state a prior `forceClose`
produced) leaves the state unchanged and emits no Broadcast Event. -/
theorem expire_noop_after_forceClose (s s2 : MState) (ev : BEvent) (now now2 : Nat) :
    (s.status ≠ .question_active → expire now s = (s, none)) ∧
    (forceClose s = .ok (s2, ev) → expire now2 s2 = (s2, none)) := by
  constructor
  · intro h
    obtain ⟨st, idx, dl⟩ := s
    cases st <;> cases idx <;> cases dl <;> simp_all [expire]
  · intro h
    unfold forceClose at h
    split at h
    · cases h
      simp [expire]
    · cases h

/-- C6 witness: after force-closing the started session, a late timer firing
is a no-op with no event. -/
theorem expire_noop_after_forceClose_witness :
    expire 99999 afterExpire = (afterExpire, none) :=
  (expire_noop_after_forceClose afterStart afterExpire (.question_closed 0) 0 99999).2 rfl

/-! ## Claim C4 — transactional atomicity -/

/-- Unfolding of `execSql` on a connection with an open transaction. -/
theorem execSql_pending {σ ρ : Type} (op : SqlOp σ ρ) (c : DBConn σ) (s : σ)
    (hc : c.pending = some s) :
    execSql op c =
      match op s with
      | .ok (r, s2) => (.ok r, ⟨c.committed, some s2⟩)
      | .error e => (.error e, c) := by
  unfold execSql
  rw [hc]

/-- Inside an open transaction, running queries never touches the committed
state; the results and the pending state track the reference sequential
semantics, and a failure leaves some pending state in place for `ROLLBACK`
to discard. -/
theorem runQueries_pending {σ ρ : Type} (qs : List (SqlOp σ ρ)) :
    ∀ (c : DBConn σ) (s : σ), c.pending = some s →
      (runQueries qs c).2.committed = c.committed ∧
      (∀ rs s2, applyAll qs s = .ok (rs, s2) →
        (runQueries qs c).1 = .ok rs ∧ (runQueries qs c).2.pending = some s2) ∧
      (∀ e, applyAll qs s = .error e →
        (runQueries qs c).1 = .error e ∧ ∃ s3, (runQueries qs c).2.pending = some s3) := by
  induction qs with
  | nil =>
    intro c s hc
    refine ⟨rfl, ?_, ?_⟩
    · intro rs s2 h
      simp only [applyAll, Except.ok.injEq, Prod.mk.injEq] at h
      simp [runQueries, ← h.1, ← h.2, hc]
    · intro e h
      simp [applyAll] at h
  | cons q rest ih =>
    intro c s hc
    have hex := execSql_pending q c s hc
    cases hq : q s with
    | ok rs2 =>
      obtain ⟨r, s2⟩ := rs2
      rw [hq] at hex
      have hap : applyAll (q :: rest) s =
          match applyAll rest s2 with
          | .ok (rs, s3) => .ok (r :: rs, s3)
          | .error e => .error e := by
        simp only [applyAll]
        rw [hq]
      obtain ⟨hcomm, hok, herr⟩ := ih ⟨c.committed, some s2⟩ s2 rfl
      cases hrest : runQueries rest ⟨c.committed, some s2⟩ with
      | mk res c3 =>
        rw [hrest] at hcomm hok herr
        dsimp only at hcomm hok herr
        cases res with
        | ok rs4 =>
          have hrq2 : runQueries (q :: rest) c = (.ok (r :: rs4), c3) := by
            simp only [runQueries]
            rw [hex]
            dsimp only
            rw [hrest]
          cases happ : applyAll rest s2 with
          | ok v =>
            obtain ⟨rs5, s5⟩ := v
            obtain ⟨h51, h52⟩ := hok rs5 s5 happ
            injection h51 with h51
            subst h51
            rw [happ] at hap
            refine ⟨?_, ?_, ?_⟩
            · rw [hrq2]; exact hcomm
            · intro rs s3 h
              rw [hap] at h
              injection h with h
              injection h with ha hb
              subst ha; subst hb
              rw [hrq2]
              exact ⟨rfl, h52⟩
            · intro e h
              rw [hap] at h
              simp at h
          | error e2 =>
            have h6 := (herr e2 happ).1
            simp at h6
        | error e3 =>
          have hrq2 : runQueries (q :: rest) c = (.error e3, c3) := by
            simp only [runQueries]
            rw [hex]
            dsimp only
            rw [hrest]
          cases happ : applyAll rest s2 with
          | ok v =>
            obtain ⟨rs5, s5⟩ := v
            have h6 := (hok rs5 s5 happ).1
            simp at h6
          | error e2 =>
            obtain ⟨h61, h62⟩ := herr e2 happ
            injection h61 with h61
            subst h61
            rw [happ] at hap
            refine ⟨?_, ?_, ?_⟩
            · rw [hrq2]; exact hcomm
            · intro rs s3 h
              rw [hap] at h
              simp at h
            · intro e h
              rw [hap] at h
              injection h with h
              subst h
              rw [hrq2]
              exact ⟨rfl, h62⟩
    | error e =>
      rw [hq] at hex
      have hrq2 : runQueries (q :: rest) c = (.error e, c) := by
        simp only [runQueries]
        rw [hex]
      have hap2 : applyAll (q :: rest) s = .error e := by
        simp only [applyAll]
        rw [hq]
      refine ⟨by rw [hrq2], ?_, ?_⟩
      · intro rs s3 h
        rw [hap2] at h
        simp at h
      · intro e2 h
        rw [hap2] at h
        injection h with h
        subst h
        rw [hrq2]
        exact ⟨rfl, s, hc⟩

/-- C4: a transaction either fails — surfacing the failing query's error and
leaving the stored (committed) state exactly as it was before the
transaction began — or succeeds, committing the sequential effect of all its
queries together and returning all their results. -/
theorem transaction_rolls_back_or_commits {σ ρ : Type} (qs : List (SqlOp σ ρ))
    (c : DBConn σ) (h : c.pending = none) :
    (∀ e, applyAll qs c.committed = .error e →
      (transaction qs c).1 = .error e ∧ (transaction qs c).2 = c) ∧
    (∀ rs s2, applyAll qs c.committed = .ok (rs, s2) →
      (transaction qs c).1 = .ok rs ∧ (transaction qs c).2 = ⟨s2, none⟩) := by
  obtain ⟨comm, pend⟩ := c
  simp only at h
  subst h
  obtain ⟨hcomm, hok, herr⟩ := runQueries_pending qs (beginTransaction ⟨comm, none⟩) comm rfl
  constructor
  · intro e he
    obtain ⟨h1, s3, h3⟩ := herr e he
    cases hq : runQueries qs (beginTransaction ⟨comm, none⟩) with
    | mk res c2 =>
      rw [hq] at h1 h3 hcomm
      simp only at h1 h3 hcomm
      subst h1
      obtain ⟨c2c, c2p⟩ := c2
      simp only at h3 hcomm
      subst h3
      have ht : transaction qs ⟨comm, none⟩ =
          (.error e, rollbackTransaction ⟨c2c, some s3⟩) := by
        unfold transaction
        rw [hq]
      rw [ht]
      simp only [beginTransaction] at hcomm
      unfold rollbackTransaction
      simp [hcomm]
  · intro rs s2 hok2
    obtain ⟨h1, h2⟩ := hok rs s2 hok2
    cases hq : runQueries qs (beginTransaction ⟨comm, none⟩) with
    | mk res c2 =>
      rw [hq] at h1 h2 hcomm
      simp only at h1 h2 hcomm
      subst h1
      obtain ⟨c2c, c2p⟩ := c2
      simp only at h2 hcomm
      subst h2
      have ht : transaction qs ⟨comm, none⟩ =
          (.ok rs, commitTransaction ⟨c2c, some s2⟩) := by
        unfold transaction
        rw [hq]
      rw [ht]
      unfold commitTransaction
      simp

/-- C4 witness: a two-query transaction whose second query fails surfaces
the error and leaves the committed state at its prior value 5. -/
theorem transaction_rolls_back_or_commits_witness :
    (transaction failingQueries connFive).1 = .error "SQLITE_ERROR" ∧
    (transaction failingQueries connFive).2 = connFive :=
  (transaction_rolls_back_or_commits failingQueries connFive rfl).1 "SQLITE_ERROR" rfl

/-! ## Claim C5 — at most one Answer per (participant, question) -/

/-- C5 counterexample: after the session has moved on (here: ended), a
further submit call for a pair that already has an Answer is rejected with
`InvalidState`, not `Duplicate` — the state check precedes the duplicate
check — though it still creates no new record. -/
theorem submit_after_state_change_not_duplicate :
    hasAnswerFor [storedAnswer] 1 7 = true ∧
    submit [7] endedState [1] [] [storedAnswer] 1 7 "b" 9 =
      (.invalidState, [storedAnswer]) ∧
    SubmitOutcome.invalidState ≠ SubmitOutcome.duplicate := by
  decide

/-- C5 (amended): once an Answer exists for a (participant, question) pair,
every further submit call for that pair creates no new Answer record and
never succeeds; it is rejected with `Duplicate` when the session is still in
`question_active` on that question and the participant is still an eligible
member (and with `InvalidState`/`Forbidden` otherwise); and every submit
call preserves "at most one Answer per pair". -/
theorem submit_at_most_one_answer (questions : List Nat) (st : MState)
    (memberIds removedIds : List Nat) (answers : List AnswerRec)
    (pid qid : Nat) (payload : String) (submittedAt : Nat) :
    (hasAnswerFor answers pid qid = true →
      (submit questions st memberIds removedIds answers pid qid payload submittedAt).2 =
        answers ∧
      (submit questions st memberIds removedIds answers pid qid payload submittedAt).1 ≠
        .accepted) ∧
    (st.status = .question_active → currentQuestionId questions st = some qid →
      pid ∉ removedIds → pid ∈ memberIds → hasAnswerFor answers pid qid = true →
      submit questions st memberIds removedIds answers pid qid payload submittedAt =
        (.duplicate, answers)) ∧
    (∀ p q, countAnswersFor answers p q ≤ 1 →
      countAnswersFor
        (submit questions st memberIds removedIds answers pid qid payload submittedAt).2
        p q ≤ 1) := by
  refine ⟨?_, ?_, ?_⟩
  · intro hdup
    unfold submit
    by_cases hst : st.status = .question_active ∧ currentQuestionId questions st = some qid
    · by_cases hforb : pid ∈ removedIds ∨ pid ∉ memberIds
      · simp [hst, hforb]
      · simp [hst, hforb, hdup]
    · simp [hst]
  · intro h1 h2 h3 h4 hdup
    unfold submit
    have hforb : ¬(pid ∈ removedIds ∨ pid ∉ memberIds) := by
      push_neg
      exact ⟨h3, h4⟩
    simp [h1, h2, hforb, hdup]
  · intro p q hcount
    by_cases hst : st.status = .question_active ∧ currentQuestionId questions st = some qid
    · by_cases hforb : pid ∈ removedIds ∨ pid ∉ memberIds
      · have hsub : submit questions st memberIds removedIds answers pid qid
            payload submittedAt = (.forbidden, answers) := by
          unfold submit
          rw [if_pos hst, if_pos hforb]
        rw [hsub]
        exact hcount
      · by_cases hdup : hasAnswerFor answers pid qid = true
        · have hsub : submit questions st memberIds removedIds answers pid qid
              payload submittedAt = (.duplicate, answers) := by
            unfold submit
            rw [if_pos hst, if_neg hforb, if_pos hdup]
          rw [hsub]
          exact hcount
        · have hzero : countAnswersFor answers pid qid = 0 := by
            unfold countAnswersFor
            rw [List.length_eq_zero, List.filter_eq_nil]
            intro a ha hpa
            apply hdup
            unfold hasAnswerFor
            rw [List.any_eq_true]
            exact ⟨a, ha, hpa⟩
          have hsub : submit questions st memberIds removedIds answers pid qid
              payload submittedAt =
              (.accepted, answers ++ [⟨pid, qid, payload, submittedAt⟩]) := by
            unfold submit
            rw [if_pos hst, if_neg hforb, if_neg hdup]
          rw [hsub]
          by_cases hpq : p = pid ∧ q = qid
          · obtain ⟨hp, hq⟩ := hpq
            subst hp; subst hq
            unfold countAnswersFor at hzero ⊢
            simp [List.filter_append, hzero]
          · unfold countAnswersFor at hcount ⊢
            simp only [List.filter_append, List.length_append]
            have hcond : ((⟨pid, qid, payload, submittedAt⟩ : AnswerRec).participantId == p &&
                (⟨pid, qid, payload, submittedAt⟩ : AnswerRec).questionId == q) = false := by
              dsimp only
              by_cases hp : pid = p
              · have hq : qid ≠ q := fun hq => hpq ⟨hp.symm, hq.symm⟩
                simp [hq]
              · simp [hp]
            have hone : (List.filter
                (fun a => a.participantId == p && a.questionId == q)
                [(⟨pid, qid, payload, submittedAt⟩ : AnswerRec)]).length = 0 := by
              simp only [List.filter_cons, hcond, Bool.false_eq_true, if_false,
                List.filter_nil, List.length_nil]
            omega
    · have hsub : submit questions st memberIds removedIds answers pid qid
          payload submittedAt = (.invalidState, answers) := by
        unfold submit
        rw [if_neg hst]
      rw [hsub]
      exact hcount

/-- C5 witness: with the session live on question 7 and participant 1 an
active member, a resubmission for the already-answered question returns
`Duplicate` and leaves the answer list unchanged. -/
theorem submit_at_most_one_answer_witness :
    submit [7] afterStart [1] [] [storedAnswer] 1 7 "b" 6 =
      (.duplicate, [storedAnswer]) :=
  (submit_at_most_one_answer [7] afterStart [1] [] [storedAnswer] 1 7 "b" 6).2.1
    (by decide) (by decide) (by decide) (by decide) (by decide)

/-! ## Claim C7 — token verification is total and exact -/

/-- C7: token verification never throws — it yields the embedded payload
exactly for a token signed with the configured secret that has not expired,
and yields the Invalid outcome (`none`) for every malformed token, every
token signed with a different secret, and every expired token; a token
produced by `generateToken` verifies to its payload while its 24-hour
expiry has not passed. -/
theorem verifyToken_total_and_exact {π : Type} (secret : String) (now : Nat)
    (t : JwtToken π) (p : π) :
    (verifyToken secret now t = some p ↔
      ∃ e iss aud, t = .signed p secret e iss aud ∧ now < e) ∧
    (∀ raw, t = .malformed raw → verifyToken secret now t = none) ∧
    (∀ pl s e iss aud, t = .signed pl s e iss aud → s ≠ secret →
      verifyToken secret now t = none) ∧
    (∀ pl s e iss aud, t = .signed pl s e iss aud → e ≤ now →
      verifyToken secret now t = none) ∧
    (∀ (now2 : Nat) (pl : π), now2 < now + 24 * 60 * 60 * 1000 →
      verifyToken secret now2 (generateToken secret now pl) = some pl) := by
  refine ⟨?_, ?_, ?_, ?_, ?_⟩
  · cases t with
    | malformed raw => simp [verifyToken, jwtVerify]
    | signed pl s e iss aud =>
      unfold verifyToken jwtVerify
      dsimp only
      by_cases hs : s = secret
      · subst hs
        by_cases he : e ≤ now
        · rw [if_neg (by simp), if_pos he]
          dsimp only
          constructor
          · intro h; simp at h
          · rintro ⟨e2, iss2, aud2, heq, hlt⟩
            injection heq with h1 h2 h3 h4 h5
            subst h3
            exact absurd hlt (by omega)
        · rw [if_neg (by simp), if_neg he]
          dsimp only
          constructor
          · intro h
            injection h with h
            subst h
            exact ⟨e, iss, aud, rfl, by omega⟩
          · rintro ⟨e2, iss2, aud2, heq, hlt⟩
            injection heq with h1 h2 h3 h4 h5
            subst h1
            rfl
      · rw [if_pos hs]
        dsimp only
        constructor
        · intro h; simp at h
        · rintro ⟨e2, iss2, aud2, heq, hlt⟩
          injection heq with h1 h2 h3 h4 h5
          exact absurd h2 hs
  · intro raw hraw
    subst hraw
    simp [verifyToken, jwtVerify]
  · intro pl s e iss aud heq hs
    subst heq
    simp [verifyToken, jwtVerify, hs]
  · intro pl s e iss aud heq he
    subst heq
    unfold verifyToken jwtVerify
    dsimp only
    by_cases hs : s = secret
    · subst hs
      rw [if_neg (by simp), if_pos he]
    · rw [if_pos hs]
  · intro now2 pl hlt
    unfold verifyToken jwtVerify generateToken
    dsimp only
    rw [if_neg (by simp), if_neg (by omega : ¬ now + 24 * 60 * 60 * 1000 ≤ now2)]

/-- C7 witness: a freshly generated token verifies to its payload five
milliseconds later. -/
theorem verifyToken_total_and_exact_witness :
    verifyToken "geheim" 5 (generateToken "geheim" 0 (42 : Nat)) = some 42 :=
  (verifyToken_total_and_exact "geheim" 0
      (generateToken "geheim" 0 (42 : Nat)) 42).2.2.2.2 5 42 (by decide)

/-! ## Claim C8 — hidden library rows only for user 3 -/

/-- Insertion into the descending-by-id order does not change membership. -/
theorem mem_insertByIdDesc (r x : BiblioRow) (l : List BiblioRow) :
    x ∈ insertByIdDesc r l ↔ x = r ∨ x ∈ l := by
  induction l with
  | nil => simp [insertByIdDesc]
  | cons y ys ih =>
    unfold insertByIdDesc
    by_cases h : y.id ≤ r.id
    · simp [h]
    · simp only [h, if_false, List.mem_cons, ih]
      tauto

/-- `ORDER BY id DESC` does not change membership. -/
theorem mem_orderByIdDesc (x : BiblioRow) (l : List BiblioRow) :
    x ∈ orderByIdDesc l ↔ x ∈ l := by
  induction l with
  | nil => simp [orderByIdDesc]
  | cons y ys ih =>
    have hcons : orderByIdDesc (y :: ys) = insertByIdDesc y (orderByIdDesc ys) := rfl
    rw [hcons, mem_insertByIdDesc, ih]
    simp

/-- C8: a library row whose `licentie_type` is `verborgen` appears in the
result of the dashboard payload's library query, and in the result of the
`bibliotheek` endpoint, exactly when the authenticated user's id is the
hard-coded 3; every other user's result excludes it. -/
theorem verborgen_rows_iff_user3 (userId : Nat) (table : List BiblioRow)
    (r : BiblioRow) (hmem : r ∈ table)
    (hv : r.licentie_type = some "verborgen") :
    (r ∈ dashboardBiblioLijsten userId (.ok table) ↔ userId = 3) ∧
    (∀ rows, bibliotheekEndpoint userId (.ok table) = .ok rows →
      (r ∈ rows ↔ userId = 3)) := by
  have hquery : r ∈ bibliotheekQuery userId table ↔ userId = 3 := by
    unfold bibliotheekQuery
    by_cases h3 : userId = 3
    · simp [h3, mem_orderByIdDesc, hmem]
    · simp only [h3, if_false, iff_false]
      rw [mem_orderByIdDesc]
      unfold verborgenFilter
      rw [List.mem_filter]
      rintro ⟨-, hpred⟩
      rw [hv] at hpred
      simp at hpred
  constructor
  · exact hquery
  · intro rows h
    have : rows = bibliotheekQuery userId table := by
      unfold bibliotheekEndpoint at h
      injection h with h
      exact h.symm
    rw [this]
    exact hquery

/-- C8 witness: user 3 sees the hidden row of the sample table in the
dashboard payload. -/
theorem verborgen_rows_iff_user3_witness :
    (⟨2, some "verborgen"⟩ : BiblioRow) ∈ dashboardBiblioLijsten 3 (.ok biblioTable) :=
  (verborgen_rows_iff_user3 3 biblioTable ⟨2, some "verborgen"⟩
    (by decide) (by decide)).1.mpr rfl

/-! ## Claim C9 — returned users never carry the password hash -/

/-- The rest-spread really removes the `password` field: the resulting
object has no field of that name. -/
theorem hasField_omitPassword (u : UserRow) :
    hasField (omitPassword u) "password" = false := by
  unfold hasField omitPassword
  rw [List.any_eq_false]
  intro kv hkv
  rw [List.mem_filter] at hkv
  have h2 := hkv.2
  simp only [bne_iff_ne, ne_eq] at h2
  simp [h2]

/-- C9: whatever the database returns and whatever the inputs are, the user
objects handed back by `register`, `login`, `getProfile` and the service's
`verifyToken` never contain the `password` field — it is removed from the
row before it is returned. -/
theorem returned_users_have_no_password (env : AuthEnv) (secret : String) (now : Nat)
    (naam email password role : String) (userId : Nat) (t : JwtToken UserRow) :
    (∀ u tok, register env secret now naam email password role = .ok (u, tok) →
      hasField u "password" = false) ∧
    (∀ u tok, login env secret now email password = .ok (u, tok) →
      hasField u "password" = false) ∧
    (∀ u, getProfile env userId = .ok u → hasField u "password" = false) ∧
    (∀ u, verifyTokenService env secret now t = .ok u →
      hasField u "password" = false) := by
  refine ⟨?_, ?_, ?_, ?_⟩
  · intro u tok h
    unfold register at h
    cases he : env.getUserByEmail email with
    | some w => rw [he] at h; cases h
    | none =>
      rw [he] at h
      dsimp only at h
      cases hu : env.getUserById (env.createUser
          [("naam", naam), ("email", email),
            ("password", env.bcryptHash password), ("role", role)]) with
      | none => rw [hu] at h; cases h
      | some user =>
        rw [hu] at h
        injection h with h
        injection h with h1 h2
        subst h1
        exact hasField_omitPassword user
  · intro u tok h
    unfold login at h
    cases he : env.getUserByEmail email with
    | none => rw [he] at h; cases h
    | some user =>
      rw [he] at h
      dsimp only at h
      by_cases hcmp : env.bcryptCompare password ((lookupField user "password").getD "")
      · rw [if_pos hcmp] at h
        injection h with h
        injection h with h1 h2
        subst h1
        exact hasField_omitPassword user
      · rw [if_neg hcmp] at h
        cases h
  · intro u h
    unfold getProfile at h
    cases hu : env.getUserById userId with
    | none => rw [hu] at h; cases h
    | some user =>
      rw [hu] at h
      injection h with h
      subst h
      exact hasField_omitPassword user
  · intro u h
    unfold verifyTokenService at h
    cases hv : verifyToken secret now t with
    | none => rw [hv] at h; cases h
    | some decoded =>
      rw [hv] at h
      dsimp only at h
      cases hn : ((lookupField decoded "id").getD "").toNat? with
      | none => rw [hn] at h; cases h
      | some uid =>
        rw [hn] at h
        dsimp only at h
        cases hu : env.getUserById uid with
        | none => rw [hu] at h; cases h
        | some user =>
          rw [hu] at h
          injection h with h
          subst h
          exact hasField_omitPassword user

/-- C9 witness: the profile the sample environment returns for user 1
carries no `password` field. -/
theorem returned_users_have_no_password_witness :
    hasField (omitPassword
      [("id", "1"), ("naam", "Anna"), ("email", "a@b.nl"),
        ("password", "hash1"), ("role", "teacher")]) "password" = false :=
  (returned_users_have_no_password envOneUser "geheim" 0 "Anna" "a@b.nl" "pw"
      "teacher" 1 (.malformed "x")).2.2.1
    (omitPassword
      [("id", "1"), ("naam", "Anna"), ("email", "a@b.nl"),
        ("password", "hash1"), ("role", "teacher")]) rfl

/-! ## Claim C10 — sliding-window rate limiting -/

/-- Filtering with a pointwise-stronger predicate yields a shorter list. -/
theorem length_filter_le_of_imp {α : Type} (p q : α → Bool) (l : List α)
    (h : ∀ a ∈ l, p a = true → q a = true) :
    (l.filter p).length ≤ (l.filter q).length := by
  induction l with
  | nil => simp
  | cons x xs ih =>
    have ih2 := ih (fun a ha hpa => h a (List.mem_cons_of_mem x ha) hpa)
    simp only [List.filter_cons]
    by_cases hp : p x = true
    · rw [if_pos hp, if_pos (h x (List.mem_cons_self x xs) hp)]
      simpa using ih2
    · rw [if_neg hp]
      by_cases hq : q x = true
      · rw [if_pos hq]
        exact Nat.le_succ_of_le ih2
      · rw [if_neg hq]
        exact ih2

/-- Filtering twice when the outer predicate implies the inner one is the
same as filtering once with the outer predicate. -/
theorem filter_filter_of_imp {α : Type} (p q : α → Bool) (l : List α)
    (h : ∀ a, p a = true → q a = true) :
    (l.filter q).filter p = l.filter p := by
  induction l with
  | nil => rfl
  | cons x xs ih =>
    simp only [List.filter_cons]
    by_cases hq : q x = true
    · rw [if_pos hq]
      simp only [List.filter_cons, ih]
    · rw [if_neg hq]
      have hp : ¬ p x = true := fun hp => hq (h x hp)
      rw [if_neg hp, ih]

/-- Pruning at a later time after pruning at an earlier time is the same as
pruning at the later time only. -/
theorem prune_prune (W x y : Nat) (l : List Nat) (h : y ≤ x) :
    prune W x (prune W y l) = prune W x l := by
  unfold prune
  apply filter_filter_of_imp
  intro a ha
  simp only [decide_eq_true_eq] at ha ⊢
  omega

/-- `prune` distributes over append. -/
theorem prune_append (W x : Nat) (l1 l2 : List Nat) :
    prune W x (l1 ++ l2) = prune W x l1 ++ prune W x l2 := by
  unfold prune
  rw [List.filter_append]

/-- Window counts add over append. -/
theorem countWin_append (W : Nat) (A B : List Nat) (t : Nat) :
    countWin W (A ++ B) t = countWin W A t + countWin W B t := by
  unfold countWin
  rw [List.filter_append, List.length_append]

/-- The sliding-window invariant behind the rate limiter: if the state's
record for `key` agrees with the accepted-so-far timestamps `A` under every
future prune, and every trailing window over `A` is within the limit, then
after feeding any chronologically ordered trace every trailing window over
the extended accepted list is still within the limit. -/
theorem rateLimitRun_window_bound {κ : Type} [DecidableEq κ] (W M : Nat) (key : κ) :
    ∀ (trace : List (κ × Nat)) (st : RLState κ) (A : List Nat) (c : Nat),
      (trace.map Prod.snd).Pairwise (· ≤ ·) →
      (∀ x ∈ trace, c ≤ x.2) →
      (∀ x, c ≤ x → prune W x (st.requests key) = prune W x A) →
      (∀ t, countWin W A t ≤ M) →
      ∀ t, countWin W (A ++ acceptedFor key (rateLimitRun W M st trace).2) t ≤ M := by
  intro trace
  induction trace with
  | nil =>
    intro st A c hmono hc hinv hP t
    simp only [rateLimitRun, acceptedFor, List.filter_nil, List.map_nil,
      List.append_nil]
    exact hP t
  | cons x rest ih =>
    obtain ⟨k, now⟩ := x
    intro st A c hmono hc hinv hP t
    simp only [List.map_cons, List.pairwise_cons] at hmono
    obtain ⟨hnowle, hmono2⟩ := hmono
    have hcnow : c ≤ now := hc (k, now) (List.mem_cons_self _ _)
    have hcrest : ∀ x ∈ rest, now ≤ x.2 := fun x hx =>
      hnowle x.2 (List.mem_map_of_mem Prod.snd hx)
    have hrun : rateLimitRun W M st ((k, now) :: rest) =
        ((rateLimitRun W M (rateLimitStep W M st k now).1 rest).1,
          ((k, now), (rateLimitStep W M st k now).2) ::
            (rateLimitRun W M (rateLimitStep W M st k now).1 rest).2) := rfl
    rw [hrun]
    by_cases hk : k = key
    · subst hk
      have hpruned : prune W now (st.requests k) = prune W now A := hinv now hcnow
      by_cases hlim : M ≤ (prune W now (st.requests k)).length
      · have hstep : rateLimitStep W M st k now =
            (⟨fun k2 => if k2 = k then prune W now (st.requests k)
                else st.requests k2⟩,
              .tooMany 429 ((W + 999) / 1000)) := by
          simp only [rateLimitStep]
          rw [if_pos hlim]
        rw [hstep]
        dsimp only
        have hacc : ∀ L, acceptedFor k (((k, now),
            RLOutcome.tooMany 429 ((W + 999) / 1000)) :: L) = acceptedFor k L := by
          intro L
          unfold acceptedFor
          simp
        rw [hacc]
        refine ih ⟨fun k2 => if k2 = k then prune W now (st.requests k)
            else st.requests k2⟩ A now hmono2 hcrest ?_ hP t
        intro x hx
        dsimp only
        rw [if_pos rfl, prune_prune W x now _ hx, hinv x (hcnow.trans hx)]
      · have hstep : rateLimitStep W M st k now =
            (⟨fun k2 => if k2 = k then prune W now (st.requests k) ++ [now]
                else st.requests k2⟩, .next) := by
          simp only [rateLimitStep]
          rw [if_neg hlim]
        rw [hstep]
        dsimp only
        have hacc : ∀ L, acceptedFor k (((k, now), RLOutcome.next) :: L) =
            now :: acceptedFor k L := by
          intro L
          unfold acceptedFor
          simp
        rw [hacc]
        have hP2 : ∀ t2, countWin W (A ++ [now]) t2 ≤ M := by
          intro t2
          rw [countWin_append]
          by_cases hin : now ≤ t2 ∧ t2 < now + W
          · have h1 : countWin W [now] t2 = 1 := by
              simp [countWin, hin.1, hin.2]
            have h2 : countWin W A t2 ≤ (prune W now A).length := by
              unfold countWin prune
              apply length_filter_le_of_imp
              intro a _ ha
              simp only [Bool.and_eq_true, decide_eq_true_eq] at ha ⊢
              omega
            rw [hpruned] at hlim
            omega
          · have h1 : countWin W [now] t2 = 0 := by
              rcases Classical.em (now ≤ t2) with h | h
              · have h2 : ¬ t2 < now + W := fun hlt => hin ⟨h, hlt⟩
                simp [countWin, h, h2]
              · simp [countWin, h]
            have := hP t2
            omega
        have hinv2 : ∀ x, now ≤ x →
            prune W x ((fun k2 => if k2 = k then prune W now (st.requests k) ++ [now]
              else st.requests k2) k) = prune W x (A ++ [now]) := by
          intro x hx
          dsimp only
          rw [if_pos rfl, prune_append, prune_append,
            prune_prune W x now _ hx, hinv x (hcnow.trans hx)]
        have hres := ih ⟨fun k2 => if k2 = k then prune W now (st.requests k) ++ [now]
            else st.requests k2⟩ (A ++ [now]) now hmono2 hcrest hinv2 hP2 t
        rw [List.append_assoc] at hres
        simpa using hres
    · have hreq : (rateLimitStep W M st k now).1.requests key = st.requests key := by
        simp only [rateLimitStep]
        split <;>
          · dsimp only
            rw [if_neg (fun h => hk h.symm)]
      have hacc : ∀ (oc : RLOutcome) (L : List ((κ × Nat) × RLOutcome)),
          acceptedFor key (((k, now), oc) :: L) = acceptedFor key L := by
        intro oc L
        unfold acceptedFor
        simp [hk]
      rw [hacc]
      refine ih (rateLimitStep W M st k now).1 A c hmono2
        (fun x hx => hc x (List.mem_cons_of_mem _ hx)) ?_ hP t
      intro x hx
      rw [hreq]
      exact hinv x hx

/-- C10: for every client key, under chronologically ordered arrivals the
middleware accepts at most `max` requests whose timestamps lie within any
trailing window of `windowMs` milliseconds; and once a key has `max`
recorded requests inside the current window, a further request from that
key is answered with status 429 and is not recorded — the key's stored
list stays the pruned one, without the rejected request's timestamp. -/
theorem rateLimit_sliding_window {κ : Type} [DecidableEq κ] (W M : Nat) (key : κ)
    (trace : List (κ × Nat)) (t : Nat)
    (hmono : (trace.map Prod.snd).Pairwise (· ≤ ·)) :
    countWin W (acceptedFor key (rateLimitRun W M initialRL trace).2) t ≤ M ∧
    (∀ (st : RLState κ) (now : Nat),
      M ≤ (prune W now (st.requests key)).length →
      rateLimitStep W M st key now =
        (⟨fun k2 => if k2 = key then prune W now (st.requests key)
            else st.requests k2⟩,
          .tooMany 429 ((W + 999) / 1000))) := by
  constructor
  · have h := rateLimitRun_window_bound W M key trace initialRL [] 0 hmono
      (fun x _ => Nat.zero_le _) (fun x _ => rfl)
      (fun t2 => by simp [countWin]) t
    simpa using h
  · intro st now h
    simp only [rateLimitStep]
    rw [if_pos h]

/-- C10 witness: three requests from one client one millisecond apart with
`windowMs = 10`, `max = 2` keep every trailing window at two accepted
requests or fewer, and a key at the limit gets a 429 without being
recorded. -/
theorem rateLimit_sliding_window_witness :
    countWin 10 (acceptedFor 0
      (rateLimitRun 10 2 (initialRL : RLState Nat) [(0, 1), (0, 2), (0, 3)]).2) 5 ≤ 2 ∧
    (∀ (st : RLState Nat) (now : Nat),
      2 ≤ (prune 10 now (st.requests 0)).length →
      rateLimitStep 10 2 st 0 now =
        (⟨fun k2 => if k2 = 0 then prune 10 now (st.requests 0)
            else st.requests k2⟩,
          .tooMany 429 ((10 + 999) / 1000))) :=
  rateLimit_sliding_window 10 2 0 [(0, 1), (0, 2), (0, 3)] 5 (by decide)

end Overhoorder
